/-
Verification of the WattWise backend against its specification.

The Python sources are shallowly embedded:
  * times of day are naturals (seconds since local midnight for tariff slab
    boundaries and price lookup, minutes for the simulation cursor),
  * absolute timestamps are integers (seconds),
  * monetary and energy values are rationals,
  * Python's `round(x, n)` (round half to even) is `pyRound n`,
  * database state is explicit record-of-lists state passed through the
    request handlers, which return `Except` (HTTP status code on error).
-/
import Mathlib

namespace WattWise

/-! ## Python rounding

`round(x, n)` in Python rounds half to even.  `rhe q` is the integer nearest
to `q`, ties to the even integer; `pyRound n q` rounds `q` to `n` decimals. -/

def rhe (q : ℚ) : ℤ :=
  if q - (⌊q⌋ : ℚ) < 1/2 then ⌊q⌋
  else if 1/2 < q - (⌊q⌋ : ℚ) then ⌊q⌋ + 1
  else if ⌊q⌋ % 2 = 0 then ⌊q⌋ else ⌊q⌋ + 1

def pyRound (n : ℕ) (q : ℚ) : ℚ :=
  (rhe (q * 10 ^ n) : ℚ) / 10 ^ n

theorem rhe_intCast (k : ℤ) : rhe (k : ℚ) = k := by
  simp [rhe]

theorem rhe_ge_floor (q : ℚ) : ⌊q⌋ ≤ rhe q := by
  unfold rhe; split_ifs <;> omega

theorem rhe_le_floor_add_one (q : ℚ) : rhe q ≤ ⌊q⌋ + 1 := by
  unfold rhe; split_ifs <;> omega

theorem pyRound_idem (n : ℕ) (q : ℚ) : pyRound n (pyRound n q) = pyRound n q := by
  unfold pyRound
  rw [div_mul_cancel₀ _ (pow_ne_zero n (by norm_num : (10:ℚ) ≠ 0)), rhe_intCast]

/-! ## Tariff slabs and price lookup
(`services/tariff_service.py`)

A `Tariff` row stores a slab's start and end times of day (seconds since
midnight, mirroring the `TIME`-typed columns) and its price per kWh. -/

structure Tariff where
  start_time : ℕ
  end_time : ℕ
  price_per_unit : ℚ
deriving DecidableEq, Repr

/-- `get_price_for_timestamp`: scan the rows; a normal slab
(`start_time < end_time`) matches when `start ≤ t < end`, an overnight slab
(`start_time ≥ end_time`) when `t ≥ start or t < end`.  First match wins;
fall back to 6.0 when nothing matches.  `t` is the timestamp's IST
time of day in seconds. -/
def get_price_for_timestamp (t : ℕ) (rows : List Tariff) : ℚ :=
  match rows with
  | [] => 6
  | row :: rest =>
    if row.start_time < row.end_time then
      if row.start_time ≤ t ∧ t < row.end_time then row.price_per_unit
      else get_price_for_timestamp t rest
    else
      if t ≥ row.start_time ∨ t < row.end_time then row.price_per_unit
      else get_price_for_timestamp t rest

/-- The spec's wording of slab matching: a slab with `start < end` contains
`t` when `start ≤ t < end`, and a wrap-around slab (`start ≥ end`) when
`t ≥ start` or `t < end`. -/
def slabContainsSpec (t : ℕ) (row : Tariff) : Bool :=
  if row.start_time < row.end_time then
    decide (row.start_time ≤ t ∧ t < row.end_time)
  else
    decide (t ≥ row.start_time ∨ t < row.end_time)

/-- The default four-slab schedule inserted by `db/seed.py`:
06:00–10:00 @ 6, 10:00–18:00 @ 5, 18:00–22:00 @ 7, 22:00–23:59 @ 3
(times in seconds since midnight). -/
def seededTariffs : List Tariff :=
  [⟨21600, 36000, 6⟩, ⟨36000, 64800, 5⟩, ⟨64800, 79200, 7⟩, ⟨79200, 86340, 3⟩]

/-- The schedule of the spec's wrap-around example: the default daytime slabs
together with an overnight slab 22:00–06:00 @ 3. -/
def wrapSchedule : List Tariff :=
  [⟨21600, 36000, 6⟩, ⟨36000, 64800, 5⟩, ⟨64800, 79200, 7⟩, ⟨79200, 21600, 3⟩]

/-- C1: price lookup returns the price of the first slab (in scan order)
containing the time of day, under the spec's matching rule, with fallback 6.0;
with the overnight slab (22:00, 06:00, price 3) the price at 23:30 and at
05:00 is 3, while 12:00 falls into the 10:00–18:00 slab at price 5. -/
theorem get_price_first_matching_slab :
    (∀ (t : ℕ) (rows : List Tariff),
      get_price_for_timestamp t rows =
        match rows.find? (slabContainsSpec t) with
        | some row => row.price_per_unit
        | none => 6) ∧
    get_price_for_timestamp 84600 wrapSchedule = 3 ∧
    get_price_for_timestamp 18000 wrapSchedule = 3 ∧
    get_price_for_timestamp 43200 wrapSchedule = 5 ∧
    get_price_for_timestamp 43200 wrapSchedule ≠ 3 := by
  refine ⟨?_, by decide, by decide, by decide, by decide⟩
  intro t rows
  induction rows with
  | nil => rfl
  | cons row rest ih =>
    by_cases hlt : row.start_time < row.end_time
    · by_cases hin : row.start_time ≤ t ∧ t < row.end_time
      · simp [get_price_for_timestamp, List.find?, slabContainsSpec, hlt, hin]
      · simp [get_price_for_timestamp, List.find?, slabContainsSpec, hlt, hin, ih]
    · by_cases hin : t ≥ row.start_time ∨ t < row.end_time
      · simp [get_price_for_timestamp, List.find?, slabContainsSpec, hlt, hin]
      · simp [get_price_for_timestamp, List.find?, slabContainsSpec, hlt, hin, ih]

/-! ## Run-cost simulation (`simulate_cost`)

The Python loop steps through the run in 15-minute chunks (the final chunk may
be shorter), pricing each chunk at its start.  The cursor is kept in minutes.
Each iteration consumes `min 15 remaining ≥ 1` minutes, which is the loop's
termination measure. -/

structure SimResult where
  energy_used : ℚ
  cost : ℚ
  price_per_unit : ℚ
deriving DecidableEq, Repr

/-- One loop iteration state: `cursor` is `start + elapsed` in minutes,
`remaining = duration - elapsed`; returns accumulated `(total_cost, last_price)`. -/
def simLoop (power_kw : ℚ) (rows : List Tariff) (cursor remaining : ℕ)
    (acc last_price : ℚ) : ℚ × ℚ :=
  if h : remaining = 0 then (acc, last_price)
  else
    let chunk := min 15 remaining
    let price := get_price_for_timestamp (cursor % 1440 * 60) rows
    let energy := power_kw * (chunk / 60 : ℚ)
    simLoop power_kw rows (cursor + chunk) (remaining - chunk)
      (acc + energy * price) price
termination_by remaining
decreasing_by omega

/-- `simulate_cost(power_kw, duration_minutes, start, rows)`, with the start
time of day given in minutes since midnight (the parsed `"HH:MM"`). -/
def simulate_cost (power_kw : ℚ) (duration_minutes : ℕ) (startMin : ℕ)
    (rows : List Tariff) : SimResult :=
  let r := simLoop power_kw rows startMin duration_minutes 0 6
  let total_cost := r.1
  let last_price := r.2
  let energy_used := pyRound 3 (power_kw * duration_minutes / 60)
  let avg_price := if 0 < energy_used then pyRound 2 (total_cost / energy_used) else last_price
  ⟨energy_used, pyRound 2 total_cost, avg_price⟩

/-- The chunk decomposition the loop walks: offsets (from the start, minutes)
and lengths of the successive 15-minute chunks covering `remaining` minutes
from offset `elapsed`. -/
def chunkList (elapsed remaining : ℕ) : List (ℕ × ℕ) :=
  if h : remaining = 0 then []
  else
    let chunk := min 15 remaining
    (elapsed, chunk) :: chunkList (elapsed + chunk) (remaining - chunk)
termination_by remaining
decreasing_by omega

/-- Per-chunk cost: energy `power × len / 60` at the price ruling at the
chunk's start time of day. -/
def chunkCost (power_kw : ℚ) (rows : List Tariff) (startMin : ℕ) (c : ℕ × ℕ) : ℚ :=
  power_kw * (c.2 / 60 : ℚ) * get_price_for_timestamp ((startMin + c.1) % 1440 * 60) rows

theorem simLoop_cost (power_kw : ℚ) (rows : List Tariff) :
    ∀ (remaining startMin elapsed : ℕ) (acc last_price : ℚ),
      (simLoop power_kw rows (startMin + elapsed) remaining acc last_price).1 =
        acc + ((chunkList elapsed remaining).map
          (chunkCost power_kw rows startMin)).sum := by
  intro remaining
  induction remaining using Nat.strong_induction_on with
  | _ remaining ih =>
    intro startMin elapsed acc last_price
    rw [simLoop, chunkList]
    by_cases h0 : remaining = 0
    · simp [h0]
    · simp only [h0, dif_neg, not_false_iff]
      rw [show startMin + elapsed + min 15 remaining
            = startMin + (elapsed + min 15 remaining) by omega,
        ih (remaining - min 15 remaining) (by omega)]
      simp [chunkCost, add_assoc]

/-- C2: the simulated cost is the rounded sum over the 15-minute chunk walk of
chunk energy times the price at the chunk start, and the energy is
`power × minutes / 60` rounded to 3 decimals; on the seeded default schedule a
1.5 kW run at 21:30 for 60 minutes costs 7.5 (21:30–22:00 priced at 7,
22:00–22:30 at 3) with energy 1.5. -/
theorem simulate_cost_chunked :
    (∀ (power_kw : ℚ) (duration_minutes startMin : ℕ) (rows : List Tariff),
      (simulate_cost power_kw duration_minutes startMin rows).cost =
        pyRound 2 (((chunkList 0 duration_minutes).map
          (chunkCost power_kw rows startMin)).sum) ∧
      (simulate_cost power_kw duration_minutes startMin rows).energy_used =
        pyRound 3 (power_kw * duration_minutes / 60)) ∧
    (simulate_cost (3/2) 60 1290 seededTariffs).cost = 15/2 ∧
    (simulate_cost (3/2) 60 1290 seededTariffs).energy_used = 3/2 := by
  have hgen : ∀ (power_kw : ℚ) (duration_minutes startMin : ℕ) (rows : List Tariff),
      (simulate_cost power_kw duration_minutes startMin rows).cost =
        pyRound 2 (((chunkList 0 duration_minutes).map
          (chunkCost power_kw rows startMin)).sum) ∧
      (simulate_cost power_kw duration_minutes startMin rows).energy_used =
        pyRound 3 (power_kw * duration_minutes / 60) := by
    intro power_kw duration_minutes startMin rows
    constructor
    · show pyRound 2 (simLoop power_kw rows startMin duration_minutes 0 6).1 = _
      rw [show startMin = startMin + 0 by omega, simLoop_cost]
      simp
    · rfl
  refine ⟨hgen, ?_, ?_⟩
  · rw [(hgen (3/2) 60 1290 seededTariffs).1]
    have hcl : chunkList 0 60 = [(0,15),(15,15),(30,15),(45,15)] := by simp [chunkList]
    rw [hcl]
    have c1 : chunkCost (3/2) seededTariffs 1290 (0,15) = 21/8 := by
      unfold chunkCost; norm_num [get_price_for_timestamp, seededTariffs]
    have c2 : chunkCost (3/2) seededTariffs 1290 (15,15) = 21/8 := by
      unfold chunkCost; norm_num [get_price_for_timestamp, seededTariffs]
    have c3 : chunkCost (3/2) seededTariffs 1290 (30,15) = 9/8 := by
      unfold chunkCost; norm_num [get_price_for_timestamp, seededTariffs]
    have c4 : chunkCost (3/2) seededTariffs 1290 (45,15) = 9/8 := by
      unfold chunkCost; norm_num [get_price_for_timestamp, seededTariffs]
    have hsum : ([(0,15),(15,15),(30,15),(45,15)].map
        (chunkCost (3/2) seededTariffs 1290)).sum = 15/2 := by
      simp [c1, c2, c3, c4]; norm_num
    rw [hsum]
    norm_num [pyRound, rhe]
  · rw [(hgen (3/2) 60 1290 seededTariffs).2]
    norm_num [pyRound, rhe]

/-- On the seeded schedule no slab covers the seconds-of-day range
[0, 06:00) ∪ [23:59, 24:00), so lookup falls back to 6.0 there. -/
theorem seeded_price_gap (u : ℕ) (hu : u < 21600 ∨ 86340 ≤ u) :
    get_price_for_timestamp u seededTariffs = 6 := by
  rw [seededTariffs, get_price_for_timestamp.eq_2]
  rw [if_pos (by norm_num : (21600:ℕ) < 36000)]
  rw [if_neg (by omega : ¬((21600:ℕ) ≤ u ∧ u < 36000))]
  rw [get_price_for_timestamp.eq_2]
  rw [if_pos (by norm_num : (36000:ℕ) < 64800)]
  rw [if_neg (by omega : ¬((36000:ℕ) ≤ u ∧ u < 64800))]
  rw [get_price_for_timestamp.eq_2]
  rw [if_pos (by norm_num : (64800:ℕ) < 79200)]
  rw [if_neg (by omega : ¬((64800:ℕ) ≤ u ∧ u < 79200))]
  rw [get_price_for_timestamp.eq_2]
  rw [if_pos (by norm_num : (79200:ℕ) < 86340)]
  rw [if_neg (by omega : ¬((79200:ℕ) ≤ u ∧ u < 86340))]
  rw [get_price_for_timestamp.eq_1]

/-- C10: the seeded night slab 22:00–23:59 does not wrap, so every IST time of
day in [23:59, 24:00) or [00:00, 06:00) (seconds `t`) matches no slab and gets
the 6.0 fallback rather than the 3/kWh night rate; consequently a simulation
chunk whose start (minute cursor `mm`) falls between midnight and 06:00 is
billed at 6.0/kWh. -/
theorem seeded_overnight_fallback (t mm : ℕ) (ht : t < 86400)
    (hgap : t < 21600 ∨ 86340 ≤ t) (hmm : mm % 1440 < 360) :
    get_price_for_timestamp t seededTariffs = 6 ∧
    get_price_for_timestamp t seededTariffs ≠ 3 ∧
    get_price_for_timestamp (mm % 1440 * 60) seededTariffs = 6 := by
  refine ⟨seeded_price_gap t hgap, ?_, seeded_price_gap _ (Or.inl (by omega))⟩
  rw [seeded_price_gap t hgap]
  norm_num

/-- Closed instances of `seeded_overnight_fallback`: the fallback price rules
at 23:59:10 and in a chunk starting at 02:00 on the second simulated day. -/
theorem seeded_overnight_fallback_witness :
    86350 < 86400 ∧ (86350 < 21600 ∨ 86340 ≤ 86350) ∧ 2980 % 1440 < 360 ∧
    (get_price_for_timestamp 86350 seededTariffs = 6 ∧
     get_price_for_timestamp 86350 seededTariffs ≠ 3 ∧
     get_price_for_timestamp (2980 % 1440 * 60) seededTariffs = 6) :=
  ⟨by norm_num, by norm_num, by norm_num,
    seeded_overnight_fallback 86350 2980 (by norm_num) (by norm_num) (by norm_num)⟩

/-! ## Cheapest-slot search (`find_cheapest_slot`)

The search window is parsed to minutes; an end at or before the start is
pushed to the next day (`+ 1440`).  Candidates are collected while
`cursor + duration ≤ winEnd`, stepping by `step_minutes`; each candidate is
priced by `simulate_cost` on its time of day and the first strict improvement
wins (Python starts from `best_cost = inf`, modelled by `Option`).  The Python
loop does not terminate when `step_minutes = 0`, so the candidate enumeration
carries `0 < step` in its guard; all statements assume a positive step. -/

def candidates (duration_minutes step winEnd : ℕ) (cursor : ℕ) : List ℕ :=
  if h : cursor + duration_minutes ≤ winEnd ∧ 0 < step then
    cursor :: candidates duration_minutes step winEnd (cursor + step)
  else []
termination_by winEnd + 1 - cursor
decreasing_by omega

/-- The cost a candidate start (minutes, possibly ≥ 1440 for an overnight
window) is judged by: `simulate_cost` at its `"HH:MM"` rendering. -/
def candCost (power_kw : ℚ) (duration_minutes : ℕ) (rows : List Tariff) (c : ℕ) : ℚ :=
  (simulate_cost power_kw duration_minutes (c % 1440) rows).cost

/-- `best_cost = inf; if result < best_cost: update` — `none` plays `inf`. -/
def bestStep (cost : ℕ → ℚ) (b : Option (ℕ × ℚ)) (c : ℕ) : Option (ℕ × ℚ) :=
  match b with
  | none => some (c, cost c)
  | some p => if cost c < p.2 then some (c, cost c) else some p

def bestFold (cost : ℕ → ℚ) (l : List ℕ) : Option (ℕ × ℚ) :=
  l.foldl (bestStep cost) none

structure FcsResult where
  recommended_start : ℕ
  expected_cost : ℚ
  savings_vs_now : ℚ
  windowTooSmall : Bool
deriving DecidableEq, Repr

/-- `find_cheapest_slot(power, duration, window_start, window_end, rows,
step_minutes)`; `nowMin` is the current IST time of day in minutes (used only
for the savings figure). -/
def find_cheapest_slot (power_kw : ℚ) (duration_minutes winStart winEnd0 : ℕ)
    (rows : List Tariff) (step nowMin : ℕ) : FcsResult :=
  match bestFold (candCost power_kw duration_minutes rows)
      (candidates duration_minutes step
        (if winEnd0 ≤ winStart then winEnd0 + 1440 else winEnd0) winStart) with
  | none => ⟨winStart, 0, 0, true⟩
  | some p =>
    ⟨p.1 % 1440, pyRound 2 p.2,
      pyRound 2 (max 0 ((simulate_cost power_kw duration_minutes nowMin rows).cost - p.2)),
      false⟩

theorem bestFold_from (cost : ℕ → ℚ) :
    ∀ (l : List ℕ) (m : ℕ),
      ∃ m', l.foldl (bestStep cost) (some (m, cost m)) = some (m', cost m') ∧
        ((m' = m ∧ ∀ x ∈ l, cost m ≤ cost x) ∨
         (∃ l₁ l₂, l = l₁ ++ m' :: l₂ ∧ cost m' < cost m ∧
           (∀ x ∈ l₁, cost m' < cost x) ∧ (∀ x ∈ l₂, cost m' ≤ cost x))) := by
  intro l
  induction l with
  | nil => exact fun m => ⟨m, rfl, Or.inl ⟨rfl, by simp⟩⟩
  | cons x l ih =>
    intro m
    by_cases hx : cost x < cost m
    · obtain ⟨m', heq, hdis⟩ := ih x
      refine ⟨m', ?_, ?_⟩
      · simpa [List.foldl_cons, bestStep, hx] using heq
      · rcases hdis with ⟨rfl, hall⟩ | ⟨l₁, l₂, rfl, hlt, h₁, h₂⟩
        · exact Or.inr ⟨[], l, rfl, hx, by simp, hall⟩
        · refine Or.inr ⟨x :: l₁, l₂, rfl, lt_trans hlt hx, ?_, h₂⟩
          intro y hy
          rcases List.mem_cons.1 hy with rfl | hy'
          · exact hlt
          · exact h₁ y hy'
    · obtain ⟨m', heq, hdis⟩ := ih m
      refine ⟨m', ?_, ?_⟩
      · simpa [List.foldl_cons, bestStep, hx] using heq
      · rcases hdis with ⟨rfl, hall⟩ | ⟨l₁, l₂, rfl, hlt, h₁, h₂⟩
        · refine Or.inl ⟨rfl, ?_⟩
          intro y hy
          rcases List.mem_cons.1 hy with rfl | hy'
          · exact le_of_not_lt hx
          · exact hall y hy'
        · refine Or.inr ⟨x :: l₁, l₂, rfl, hlt, ?_, h₂⟩
          intro y hy
          rcases List.mem_cons.1 hy with rfl | hy'
          · exact lt_of_lt_of_le hlt (le_of_not_lt hx)
          · exact h₁ y hy'

theorem candCost_round (power_kw : ℚ) (duration_minutes : ℕ) (rows : List Tariff)
    (c : ℕ) : pyRound 2 (candCost power_kw duration_minutes rows c) =
      candCost power_kw duration_minutes rows c :=
  pyRound_idem 2 _

/-- The property C3 asserts of a `find_cheapest_slot` call: the returned
expected cost is a lower bound on every candidate's simulated cost, and the
returned start is the first candidate (in enumeration order) attaining the
minimum — all earlier candidates cost strictly more, all later ones at least
as much. -/
def cheapestSlotClaim (power_kw : ℚ) (duration_minutes winStart winEnd0 step nowMin : ℕ)
    (rows : List Tariff) : Prop :=
  (∀ c ∈ candidates duration_minutes step
      (if winEnd0 ≤ winStart then winEnd0 + 1440 else winEnd0) winStart,
    (find_cheapest_slot power_kw duration_minutes winStart winEnd0 rows step
        nowMin).expected_cost ≤ candCost power_kw duration_minutes rows c) ∧
  (candidates duration_minutes step
      (if winEnd0 ≤ winStart then winEnd0 + 1440 else winEnd0) winStart ≠ [] →
    ∃ m l₁ l₂,
      candidates duration_minutes step
          (if winEnd0 ≤ winStart then winEnd0 + 1440 else winEnd0) winStart =
        l₁ ++ m :: l₂ ∧
      (find_cheapest_slot power_kw duration_minutes winStart winEnd0 rows step
          nowMin).recommended_start = m % 1440 ∧
      (find_cheapest_slot power_kw duration_minutes winStart winEnd0 rows step
          nowMin).expected_cost = candCost power_kw duration_minutes rows m ∧
      (∀ x ∈ l₁, candCost power_kw duration_minutes rows m <
        candCost power_kw duration_minutes rows x) ∧
      (∀ x ∈ l₂, candCost power_kw duration_minutes rows m ≤
        candCost power_kw duration_minutes rows x))

/-- C3: for every power, duration, window (possibly crossing midnight) and
positive step, the cheapest-slot search returns an `expected_cost` that is ≤
the simulated cost of every step-aligned candidate start fitting the window,
and on ties the first candidate in enumeration order is returned. -/
theorem find_cheapest_slot_min (power_kw : ℚ)
    (duration_minutes winStart winEnd0 step nowMin : ℕ) (rows : List Tariff)
    (hstep : 0 < step) :
    cheapestSlotClaim power_kw duration_minutes winStart winEnd0 step nowMin rows := by
  unfold cheapestSlotClaim
  cases hc : candidates duration_minutes step
      (if winEnd0 ≤ winStart then winEnd0 + 1440 else winEnd0) winStart with
  | nil =>
    exact ⟨by simp, by simp⟩
  | cons c l =>
    obtain ⟨m', heq, hdis⟩ := bestFold_from (candCost power_kw duration_minutes rows) l c
    have hbest : bestFold (candCost power_kw duration_minutes rows) (c :: l) =
        some (m', candCost power_kw duration_minutes rows m') := heq
    have hr : find_cheapest_slot power_kw duration_minutes winStart winEnd0 rows step nowMin =
        ⟨m' % 1440, pyRound 2 (candCost power_kw duration_minutes rows m'),
          pyRound 2 (max 0 ((simulate_cost power_kw duration_minutes nowMin rows).cost
            - candCost power_kw duration_minutes rows m')), false⟩ := by
      unfold find_cheapest_slot
      rw [hc, hbest]
    rw [hr]
    have hmin : ∀ x ∈ c :: l, candCost power_kw duration_minutes rows m' ≤
        candCost power_kw duration_minutes rows x := by
      rcases hdis with ⟨rfl, hall⟩ | ⟨l₁, l₂, rfl, hlt, h₁, h₂⟩
      · intro y hy
        rcases List.mem_cons.1 hy with rfl | hy'
        · exact le_refl _
        · exact hall y hy'
      · intro y hy
        rcases List.mem_cons.1 hy with rfl | hy'
        · exact le_of_lt hlt
        · rcases List.mem_append.1 hy' with hy₁ | hy₂
          · exact le_of_lt (h₁ y hy₁)
          · rcases List.mem_cons.1 hy₂ with rfl | hy₃
            · exact le_refl _
            · exact h₂ y hy₃
    constructor
    · intro x hx
      show pyRound 2 (candCost power_kw duration_minutes rows m') ≤ _
      rw [candCost_round]
      exact hmin x hx
    · intro _
      refine ⟨m', ?_⟩
      rcases hdis with ⟨rfl, hall⟩ | ⟨l₁, l₂, hsplit, hlt, h₁, h₂⟩
      · exact ⟨[], l, rfl, rfl, candCost_round _ _ _ _, by simp, hall⟩
      · refine ⟨c :: l₁, l₂, by rw [hsplit]; rfl, rfl, candCost_round _ _ _ _, ?_, h₂⟩
        intro y hy
        rcases List.mem_cons.1 hy with rfl | hy'
        · exact hlt
        · exact h₁ y hy'

/-- Closed instance of `find_cheapest_slot_min`: a 30-minute run searched in
the window 00:00–01:00 with the default 15-minute step. -/
theorem find_cheapest_slot_min_witness :
    0 < 15 ∧ cheapestSlotClaim 1 30 0 60 15 0 seededTariffs :=
  ⟨by norm_num, find_cheapest_slot_min 1 30 0 60 15 0 seededTariffs (by norm_num)⟩

/-! ## Full schedule (`get_full_schedule`)

Python sorts the rows with the stable built-in sort on the key
`(start_time ≥ 06:00, start_time)` — booleans compare as `False < True` —
and renders each row as `{start, end, price}`.  The stable sort is embedded
as insertion sort (insertion before the first element the inserted one
compares ≤ to, which is stable for a total preorder). -/

/-- Lexicographic ≤ on the Python sort key `(start ≥ 06:00, start)` with
`False < True`. -/
def scheduleKeyLe (a b : Tariff) : Bool :=
  (!(decide (21600 ≤ a.start_time)) && decide (21600 ≤ b.start_time)) ||
  ((decide (21600 ≤ a.start_time) == decide (21600 ≤ b.start_time)) &&
    decide (a.start_time ≤ b.start_time))

/-- Plain start-time comparison. -/
def startLe (a b : Tariff) : Bool :=
  decide (a.start_time ≤ b.start_time)

def insertSorted (le : Tariff → Tariff → Bool) (x : Tariff) : List Tariff → List Tariff
  | [] => [x]
  | y :: ys => if le x y then x :: y :: ys else y :: insertSorted le x ys

def sortByKey (le : Tariff → Tariff → Bool) : List Tariff → List Tariff
  | [] => []
  | x :: xs => insertSorted le x (sortByKey le xs)

/-- `get_full_schedule`: the rows sorted on the Python key, each rendered as
its (start, end, price) triple (the `"HH:MM"` string formatting of the two
times is kept numeric). -/
def get_full_schedule (rows : List Tariff) : List (ℕ × ℕ × ℚ) :=
  (sortByKey scheduleKeyLe rows).map fun r => (r.start_time, r.end_time, r.price_per_unit)

/-- The order C4 claims for the schedule output: no slab starting at or after
06:00 appears after one starting before 06:00, and the ≥ 06:00 slabs are in
start-time order among themselves. -/
def claimedScheduleOrder (out : List (ℕ × ℕ × ℚ)) : Prop :=
  out.Pairwise fun a b =>
    (a.1 < 21600 → b.1 < 21600) ∧ (21600 ≤ a.1 → 21600 ≤ b.1 → a.1 ≤ b.1)

theorem scheduleKeyLe_eq_startLe (a b : Tariff) : scheduleKeyLe a b = startLe a b := by
  by_cases h1 : 21600 ≤ a.start_time <;> by_cases h2 : 21600 ≤ b.start_time <;>
    by_cases h3 : a.start_time ≤ b.start_time <;>
    simp [scheduleKeyLe, startLe, h1, h2, h3] <;> omega

theorem insertSorted_mem (le : Tariff → Tariff → Bool) (x z : Tariff) :
    ∀ (l : List Tariff), z ∈ insertSorted le x l ↔ z = x ∨ z ∈ l := by
  intro l
  induction l with
  | nil => simp [insertSorted]
  | cons y ys ih =>
    by_cases hxy : le x y
    · simp [insertSorted, hxy]
    · simp [insertSorted, hxy, ih]
      tauto

theorem insertSorted_perm (le : Tariff → Tariff → Bool) (x : Tariff) :
    ∀ (l : List Tariff), (insertSorted le x l).Perm (x :: l) := by
  intro l
  induction l with
  | nil => simp [insertSorted]
  | cons y ys ih =>
    by_cases hxy : le x y
    · simp [insertSorted, hxy]
    · rw [insertSorted, if_neg hxy]
      exact (ih.cons y).trans (List.Perm.swap x y ys)

theorem sortByKey_perm (le : Tariff → Tariff → Bool) :
    ∀ (l : List Tariff), (sortByKey le l).Perm l := by
  intro l
  induction l with
  | nil => simp [sortByKey]
  | cons x xs ih =>
    exact (insertSorted_perm le x (sortByKey le xs)).trans (ih.cons x)

theorem insertSorted_start_pairwise (x : Tariff) (l : List Tariff)
    (h : l.Pairwise fun a b => a.start_time ≤ b.start_time) :
    (insertSorted startLe x l).Pairwise fun a b => a.start_time ≤ b.start_time := by
  induction l with
  | nil => simp [insertSorted]
  | cons y ys ih =>
    rcases List.pairwise_cons.1 h with ⟨hy, hys⟩
    by_cases hxy : startLe x y
    · rw [insertSorted, if_pos hxy]
      have hx : x.start_time ≤ y.start_time := by simpa [startLe] using hxy
      refine List.pairwise_cons.2 ⟨?_, h⟩
      intro z hz
      rcases List.mem_cons.1 hz with rfl | hz'
      · exact hx
      · exact le_trans hx (hy z hz')
    · rw [insertSorted, if_neg hxy]
      have hyx : y.start_time ≤ x.start_time := by
        simp only [startLe, decide_eq_true_eq] at hxy
        omega
      refine List.pairwise_cons.2 ⟨?_, ih hys⟩
      intro z hz
      rcases (insertSorted_mem startLe x z ys).1 hz with rfl | hz'
      · exact hyx
      · exact hy z hz'

theorem sortByKey_start_pairwise :
    ∀ (l : List Tariff),
      (sortByKey startLe l).Pairwise fun a b => a.start_time ≤ b.start_time := by
  intro l
  induction l with
  | nil => simp [sortByKey]
  | cons x xs ih => exact insertSorted_start_pairwise x _ ih

/-- C4 counterexample: on the schedule
`[(00:00–06:00 @ 4), (06:00–22:00 @ 6)]` the code returns the slab starting
at 00:00 (midnight, before 06:00) *first*, so the claimed "slabs starting
before 06:00 sort after the ≥ 06:00 slabs" order is violated. -/
theorem get_full_schedule_counterexample :
    get_full_schedule [⟨0, 21600, 4⟩, ⟨21600, 79200, 6⟩] =
      [(0, 21600, 4), (21600, 79200, 6)] ∧
    ¬ claimedScheduleOrder (get_full_schedule [⟨0, 21600, 4⟩, ⟨21600, 79200, 6⟩]) := by
  refine ⟨rfl, ?_⟩
  unfold claimedScheduleOrder
  decide

/-- C4 (amended): the Python key `(start ≥ 06:00, start)` has a boolean
component that is monotone in the start time, so `get_full_schedule` sorts
by plain ascending start time (stably, as a permutation of the rows); a slab
starting before 06:00 therefore sorts first, and the overnight slab displays
last exactly when its start time is the numerically largest. -/
theorem get_full_schedule_start_order (rows : List Tariff) :
    get_full_schedule rows =
      ((sortByKey startLe rows).map fun r => (r.start_time, r.end_time, r.price_per_unit)) ∧
    (sortByKey startLe rows).Perm rows ∧
    (get_full_schedule rows).Pairwise (fun a b => a.1 ≤ b.1) := by
  have hle : scheduleKeyLe = startLe := by
    funext a b
    exact scheduleKeyLe_eq_startLe a b
  refine ⟨by rw [get_full_schedule, hle], sortByKey_perm startLe rows, ?_⟩
  rw [get_full_schedule, hle]
  exact List.Pairwise.map _ (fun a b hab => hab) (sortByKey_start_pairwise rows)

/-! ## Optimizer weighted scoring (`services/optimizer.py`)

The grid-load curve uses `math.sin`, embedded over ℝ with `Real.sin`; Python's
`round` on these reals is `roundR` (round half to even, as for rationals). -/

noncomputable def rheR (x : ℝ) : ℤ :=
  if x - (⌊x⌋ : ℝ) < 1/2 then ⌊x⌋
  else if 1/2 < x - (⌊x⌋ : ℝ) then ⌊x⌋ + 1
  else if ⌊x⌋ % 2 = 0 then ⌊x⌋ else ⌊x⌋ + 1

noncomputable def roundR (n : ℕ) (x : ℝ) : ℝ :=
  (rheR (x * 10 ^ n) : ℝ) / 10 ^ n

/-- `_grid_load`: sinusoidal demand proxy, clamped to [0.1, 0.9] and rounded
to 3 decimals. -/
noncomputable def _grid_load (hour : ℕ) : ℝ :=
  roundR 3 (max 0.1 (min 0.9
    (0.5 + 0.4 * Real.sin (Real.pi * (((hour % 24 : ℕ) : ℝ) - 6) / 12))))

/-- `_time_preference`: step function favouring overnight hours. -/
noncomputable def _time_preference (hour : ℕ) : ℝ :=
  if 22 ≤ hour % 24 ∨ hour % 24 < 6 then 1
  else if 6 ≤ hour % 24 ∧ hour % 24 < 9 then 0.6
  else if 18 ≤ hour % 24 ∧ hour % 24 < 22 then 0.1
  else 0.5

/-- `_weighted_score`: `0.6×(1/avg_cost) + 0.3×(1−grid_load) +
0.1×time_preference`, rounded to 4 decimals. -/
noncomputable def _weighted_score (avg_cost : ℝ) (hour : ℕ) : ℝ :=
  roundR 4 (0.6 * (1 / avg_cost) + 0.3 * (1 - _grid_load hour) +
    0.1 * _time_preference hour)

theorem rheR_add_int (x : ℝ) (k : ℤ) (hk : k % 2 = 0) :
    rheR (x + k) = rheR x + k := by
  unfold rheR
  rw [Int.floor_add_int]
  have harg : x + (k : ℝ) - ((⌊x⌋ + k : ℤ) : ℝ) = x - (⌊x⌋ : ℝ) := by
    push_cast
    ring
  rw [harg]
  split_ifs <;> omega

theorem roundR_eq_up (n : ℕ) (x : ℝ) (k : ℤ)
    (hlow : (k : ℝ) + 1/2 < x * 10 ^ n) (hhigh : x * 10 ^ n < (k : ℝ) + 1) :
    roundR n x = ((k : ℝ) + 1) / 10 ^ n := by
  have hfloor : ⌊x * 10 ^ n⌋ = k := by
    rw [Int.floor_eq_iff]
    constructor
    · linarith
    · push_cast; linarith
  unfold roundR rheR
  rw [hfloor]
  rw [if_neg (by push_cast; linarith), if_pos (by push_cast; linarith)]
  push_cast
  ring

theorem roundR_eq_down (n : ℕ) (x : ℝ) (k : ℤ)
    (hlow : (k : ℝ) ≤ x * 10 ^ n) (hhigh : x * 10 ^ n < (k : ℝ) + 1/2) :
    roundR n x = (k : ℝ) / 10 ^ n := by
  have hfloor : ⌊x * 10 ^ n⌋ = k := by
    rw [Int.floor_eq_iff]
    constructor
    · exact_mod_cast hlow
    · push_cast; linarith
  unfold roundR rheR
  rw [hfloor]
  rw [if_pos (by push_cast; linarith)]

theorem sqrt_three_bounds : (1.73205 : ℝ) < Real.sqrt 3 ∧ Real.sqrt 3 < 1.73206 := by
  have h3 : Real.sqrt 3 ^ 2 = 3 := Real.sq_sqrt (by norm_num)
  have hpos : (0 : ℝ) ≤ Real.sqrt 3 := Real.sqrt_nonneg 3
  constructor <;> nlinarith

theorem sqrt_two_bounds : (1.41421 : ℝ) < Real.sqrt 2 ∧ Real.sqrt 2 < 1.41422 := by
  have h2 : Real.sqrt 2 ^ 2 = 2 := Real.sq_sqrt (by norm_num)
  have hpos : (0 : ℝ) ≤ Real.sqrt 2 := Real.sqrt_nonneg 2
  constructor <;> nlinarith

theorem grid_load_at_22 : _grid_load 22 = 0.154 := by
  have h16 : ((22 % 24 : ℕ) : ℝ) - 6 = 16 := by norm_num
  have hangle : Real.pi * (16 : ℝ) / 12 = Real.pi / 3 + Real.pi := by ring
  have hsin : Real.sin (Real.pi * (((22 % 24 : ℕ) : ℝ) - 6) / 12) = -(Real.sqrt 3 / 2) := by
    rw [h16, hangle, Real.sin_add_pi, Real.sin_pi_div_three]
  unfold _grid_load
  rw [hsin]
  obtain ⟨h3l, h3u⟩ := sqrt_three_bounds
  have hval : (0.5 : ℝ) + 0.4 * -(Real.sqrt 3 / 2) = 0.5 - 0.2 * Real.sqrt 3 := by ring
  rw [hval]
  have hmin : min (0.9 : ℝ) (0.5 - 0.2 * Real.sqrt 3) = 0.5 - 0.2 * Real.sqrt 3 :=
    min_eq_right (by nlinarith)
  have hmax : max (0.1 : ℝ) (0.5 - 0.2 * Real.sqrt 3) = 0.5 - 0.2 * Real.sqrt 3 :=
    max_eq_right (by nlinarith)
  rw [hmin, hmax]
  rw [roundR_eq_up 3 _ 153 (by push_cast; nlinarith) (by push_cast; nlinarith)]
  norm_num

theorem sin_pi_div_twelve_eq :
    Real.sin (Real.pi / 12) = Real.sqrt 2 * (Real.sqrt 3 - 1) / 4 := by
  have h : Real.pi / 12 = Real.pi / 3 - Real.pi / 4 := by ring
  rw [h, Real.sin_sub, Real.sin_pi_div_three, Real.cos_pi_div_four,
    Real.cos_pi_div_three, Real.sin_pi_div_four]
  ring

theorem grid_load_at_19 : _grid_load 19 = 0.396 := by
  have h13 : ((19 % 24 : ℕ) : ℝ) - 6 = 13 := by norm_num
  have hangle : Real.pi * (13 : ℝ) / 12 = Real.pi / 12 + Real.pi := by ring
  have hsin : Real.sin (Real.pi * (((19 % 24 : ℕ) : ℝ) - 6) / 12) =
      -(Real.sqrt 2 * (Real.sqrt 3 - 1) / 4) := by
    rw [h13, hangle, Real.sin_add_pi, sin_pi_div_twelve_eq]
  unfold _grid_load
  rw [hsin]
  obtain ⟨h3l, h3u⟩ := sqrt_three_bounds
  obtain ⟨h2l, h2u⟩ := sqrt_two_bounds
  have hs : (0.25875 : ℝ) < Real.sqrt 2 * (Real.sqrt 3 - 1) / 4 ∧
      Real.sqrt 2 * (Real.sqrt 3 - 1) / 4 < 0.26 := by
    constructor <;> nlinarith
  have hval : (0.5 : ℝ) + 0.4 * -(Real.sqrt 2 * (Real.sqrt 3 - 1) / 4) =
      0.5 - 0.4 * (Real.sqrt 2 * (Real.sqrt 3 - 1) / 4) := by ring
  rw [hval]
  have hmin : min (0.9 : ℝ) (0.5 - 0.4 * (Real.sqrt 2 * (Real.sqrt 3 - 1) / 4)) =
      0.5 - 0.4 * (Real.sqrt 2 * (Real.sqrt 3 - 1) / 4) :=
    min_eq_right (by nlinarith [hs.1])
  have hmax : max (0.1 : ℝ) (0.5 - 0.4 * (Real.sqrt 2 * (Real.sqrt 3 - 1) / 4)) =
      0.5 - 0.4 * (Real.sqrt 2 * (Real.sqrt 3 - 1) / 4) :=
    max_eq_right (by nlinarith [hs.2])
  rw [hmin, hmax]
  rw [roundR_eq_down 3 _ 396 (by push_cast; nlinarith [hs.2]) (by push_cast; nlinarith [hs.1])]
  norm_num

/-- The property C5 asserts of the weighted score at average cost `c`: the
score formula and component models are as specified, and at equal cost the
22-hour slot outscores the 19-hour slot strictly. -/
def optimizerScoreClaim (c : ℝ) : Prop :=
  (∀ hr : ℕ, _weighted_score c hr =
    roundR 4 (0.6 * (1 / c) + 0.3 * (1 - _grid_load hr) + 0.1 * _time_preference hr)) ∧
  (∀ hr : ℕ, _grid_load hr = roundR 3 (max 0.1 (min 0.9
    (0.5 + 0.4 * Real.sin (Real.pi * (((hr % 24 : ℕ) : ℝ) - 6) / 12))))) ∧
  (∀ hr : ℕ,
    ((22 ≤ hr % 24 ∨ hr % 24 < 6) → _time_preference hr = 1) ∧
    ((6 ≤ hr % 24 ∧ hr % 24 < 9) → _time_preference hr = 0.6) ∧
    ((18 ≤ hr % 24 ∧ hr % 24 < 22) → _time_preference hr = 0.1) ∧
    ((9 ≤ hr % 24 ∧ hr % 24 < 18) → _time_preference hr = 0.5)) ∧
  _grid_load 22 = 0.154 ∧ _grid_load 19 = 0.396 ∧
  _weighted_score c 19 < _weighted_score c 22

/-- C5: the optimizer's weighted score is
`0.6×(1/avg_cost) + 0.3×(1−grid_load) + 0.1×time_preference` rounded to 4
decimals, with the clamped sinusoidal grid load (rounded to 3 decimals) and
the stated time-preference table; consequently, at any equal positive average
cost, a slot whose hour is 22 scores strictly higher than one whose hour is
19. -/
theorem weighted_score_ranks_offpeak (c : ℝ) (hc : 0 < c) : optimizerScoreClaim c := by
  refine ⟨fun hr => rfl, fun hr => rfl, ?_, grid_load_at_22, grid_load_at_19, ?_⟩
  · intro hr
    have hm : hr % 24 < 24 := Nat.mod_lt _ (by norm_num)
    refine ⟨?_, ?_, ?_, ?_⟩ <;>
      · intro hcond
        unfold _time_preference
        split_ifs <;> first | rfl | omega
  · unfold _weighted_score
    rw [grid_load_at_22, grid_load_at_19]
    have hp22 : _time_preference 22 = 1 := by
      unfold _time_preference
      split_ifs <;> first | rfl | omega
    have hp19 : _time_preference 19 = 0.1 := by
      unfold _time_preference
      split_ifs <;> first | rfl | omega
    rw [hp22, hp19]
    have hdiff : (0.6 : ℝ) * (1 / c) + 0.3 * (1 - 0.154) + 0.1 * 1 =
        (0.6 * (1 / c) + 0.3 * (1 - 0.396) + 0.1 * 0.1) + (1626 : ℤ) / 10 ^ 4 := by
      push_cast
      ring
    unfold roundR
    rw [hdiff]
    have hmul : ((0.6 * (1 / c) + 0.3 * (1 - 0.396) + 0.1 * 0.1) + (1626 : ℤ) / 10 ^ 4)
        * 10 ^ 4 =
        (0.6 * (1 / c) + 0.3 * (1 - 0.396) + 0.1 * 0.1) * 10 ^ 4 + (1626 : ℤ) := by
      push_cast
      ring
    rw [hmul, rheR_add_int _ 1626 (by norm_num)]
    have : rheR ((0.6 * (1 / c) + 0.3 * (1 - 0.396) + 0.1 * 0.1) * 10 ^ 4) <
        rheR ((0.6 * (1 / c) + 0.3 * (1 - 0.396) + 0.1 * 0.1) * 10 ^ 4) + 1626 := by
      omega
    have hcast : (rheR ((0.6 * (1 / c) + 0.3 * (1 - 0.396) + 0.1 * 0.1) * 10 ^ 4) : ℝ) <
        ((rheR ((0.6 * (1 / c) + 0.3 * (1 - 0.396) + 0.1 * 0.1) * 10 ^ 4) + 1626 : ℤ) : ℝ) := by
      exact_mod_cast this
    have hpow : (0 : ℝ) < 10 ^ 4 := by norm_num
    exact (div_lt_div_right hpow).mpr hcast

/-- Closed instance of `weighted_score_ranks_offpeak` at average cost 1. -/
theorem weighted_score_ranks_offpeak_witness :
    (0 : ℝ) < 1 ∧ optimizerScoreClaim 1 :=
  ⟨by norm_num, weighted_score_ranks_offpeak 1 (by norm_num)⟩

/-! ## Generic list helpers

`updateFirst` models the ORM pattern "query `.first()`, mutate the returned
row, commit": the first element satisfying the predicate is replaced. -/

def updateFirst {α : Type} (p : α → Bool) (f : α → α) : List α → List α
  | [] => []
  | x :: xs => if p x then f x :: xs else x :: updateFirst p f xs

theorem find?_decomp {α : Type} (p : α → Bool) :
    ∀ (l : List α) (a : α), l.find? p = some a →
      ∃ l₁ l₂, l = l₁ ++ a :: l₂ ∧ (∀ x ∈ l₁, p x = false) ∧ p a = true := by
  intro l
  induction l with
  | nil => intro a h; simp [List.find?] at h
  | cons x xs ih =>
    intro a h
    by_cases hx : p x
    · rw [List.find?_cons_of_pos _ hx] at h
      obtain rfl : x = a := by injection h
      exact ⟨[], xs, rfl, by simp, hx⟩
    · rw [List.find?_cons_of_neg _ hx] at h
      obtain ⟨l₁, l₂, rfl, h₁, ha⟩ := ih a h
      refine ⟨x :: l₁, l₂, rfl, ?_, ha⟩
      intro y hy
      rcases List.mem_cons.1 hy with rfl | hy'
      · exact Bool.eq_false_iff.2 hx
      · exact h₁ y hy'

theorem find?_of_decomp {α : Type} (p : α → Bool) (a : α) :
    ∀ (l₁ l₂ : List α), (∀ x ∈ l₁, p x = false) → p a = true →
      (l₁ ++ a :: l₂).find? p = some a := by
  intro l₁
  induction l₁ with
  | nil => intro l₂ _ ha; simpa [List.find?] using List.find?_cons_of_pos _ ha
  | cons x xs ih =>
    intro l₂ h₁ ha
    have hx : ¬ p x := by
      have := h₁ x (by simp)
      simp [this]
    rw [List.cons_append, List.find?_cons_of_neg _ hx]
    exact ih l₂ (fun y hy => h₁ y (by simp [hy])) ha

theorem updateFirst_of_decomp {α : Type} (p : α → Bool) (f : α → α) (a : α) :
    ∀ (l₁ l₂ : List α), (∀ x ∈ l₁, p x = false) → p a = true →
      updateFirst p f (l₁ ++ a :: l₂) = l₁ ++ f a :: l₂ := by
  intro l₁
  induction l₁ with
  | nil => intro l₂ _ ha; simp [updateFirst, ha]
  | cons x xs ih =>
    intro l₂ h₁ ha
    have hx : ¬ p x := by
      have := h₁ x (by simp)
      simp [this]
    rw [List.cons_append, updateFirst, if_neg hx, ih l₂ (fun y hy => h₁ y (by simp [hy])) ha,
      List.cons_append]

theorem countP_one_decomp {α : Type} (p : α → Bool) :
    ∀ (l : List α), l.countP p = 1 →
      ∃ l₁ a l₂, l = l₁ ++ a :: l₂ ∧ p a = true ∧
        (∀ x ∈ l₁, p x = false) ∧ (∀ x ∈ l₂, p x = false) := by
  intro l
  induction l with
  | nil => intro h; simp at h
  | cons x xs ih =>
    intro h
    by_cases hx : p x
    · have hxs : xs.countP p = 0 := by
        rw [List.countP_cons_of_pos _ _ hx] at h
        omega
      refine ⟨[], x, xs, rfl, hx, by simp, ?_⟩
      intro y hy
      exact Bool.eq_false_iff.2 (List.countP_eq_zero.1 hxs y hy)
    · rw [List.countP_cons_of_neg _ _ hx] at h
      obtain ⟨l₁, a, l₂, rfl, ha, h₁, h₂⟩ := ih h
      refine ⟨x :: l₁, a, l₂, rfl, ha, ?_, h₂⟩
      intro y hy
      rcases List.mem_cons.1 hy with rfl | hy'
      · exact Bool.eq_false_iff.2 hx
      · exact h₁ y hy'

/-! ## Token primitives (`utils/security.py`)

The JWT library is an external dependency; its encode/decode pair is modelled
at the boundary: a wire token is either a well-formed signed token carrying a
claim set and the key it was signed with, or malformed input.  `verify` checks
the signature key and the expiry and never raises — failures are the `none`
result.  Times are minutes (IST). -/

structure TokenClaims where
  sub : String
  username : String
  exp : ℤ
deriving DecidableEq, Repr

inductive WireToken where
  | signed (claims : TokenClaims) (key : String)
  | malformed
deriving DecidableEq, Repr

def ACCESS_TOKEN_EXPIRE_MINUTES : ℤ := 60 * 24

/-- `create_access_token(user_id, username, expires_delta=None)`: claim set
`{sub: str(user_id), username, exp: now + delta}` signed with `SECRET_KEY`. -/
def create_access_token (secret : String) (user_id : ℤ) (username : String)
    (nowMin : ℤ) (expires_delta : Option ℤ) : WireToken :=
  WireToken.signed
    ⟨toString user_id, username, nowMin + expires_delta.getD ACCESS_TOKEN_EXPIRE_MINUTES⟩
    secret

/-- `verify_access_token`: decode, checking signature and expiry; `none` on
any failure. -/
def verify_access_token (secret : String) (token : WireToken) (nowMin : ℤ) :
    Option TokenClaims :=
  match token with
  | .malformed => none
  | .signed claims key =>
    if key = secret ∧ nowMin < claims.exp then some claims else none

/-- The property C8 asserts of the token pair at a given issue time, check
time and secret. -/
def tokenRoundTripClaim (secret username : String) (user_id nowMin checkMin : ℤ) : Prop :=
  create_access_token secret user_id username nowMin none =
    WireToken.signed ⟨toString user_id, username, nowMin + 1440⟩ secret ∧
  verify_access_token secret (create_access_token secret user_id username nowMin none)
      checkMin = some ⟨toString user_id, username, nowMin + 1440⟩ ∧
  (∀ (w : WireToken) (t : ℤ),
    verify_access_token secret w t = none ∨
    ∃ c, verify_access_token secret w t = some c)

/-- C8: a default token carries subject `str(user_id)` and expiry
now + 1440 minutes; verifying it before expiry with the same secret returns
its claim set; and verification of any input totally returns either a claim
set or the null result (it never raises). -/
theorem access_token_roundtrip (secret username : String) (user_id nowMin checkMin : ℤ)
    (hbefore : checkMin < nowMin + 1440) :
    tokenRoundTripClaim secret username user_id nowMin checkMin := by
  refine ⟨rfl, ?_, ?_⟩
  · show verify_access_token secret
      (WireToken.signed ⟨toString user_id, username, nowMin + 1440⟩ secret) checkMin = _
    simp only [verify_access_token]
    simp [hbefore]
  · intro w t
    cases w with
    | malformed => exact Or.inl rfl
    | signed claims key =>
      simp only [verify_access_token]
      by_cases hcond : key = secret ∧ t < claims.exp
      · exact Or.inr ⟨claims, by rw [if_pos hcond]⟩
      · exact Or.inl (by rw [if_neg hcond])

/-- Closed instance of `access_token_roundtrip`: a token issued at minute 0 is
verified at minute 100. -/
theorem access_token_roundtrip_witness :
    (100 : ℤ) < 0 + 1440 ∧ tokenRoundTripClaim "dev-secret" "demo" 7 0 100 :=
  ⟨by norm_num, access_token_roundtrip "dev-secret" "demo" 7 0 100 (by norm_num)⟩

/-! ## OTP verification (`api/auth.py`, `verify_otp`)

Database state is the list of users and OTP records.  Handlers return
`Except` with the HTTP status code on error.  Times are minutes (IST). -/

structure User where
  id : ℤ
  username : String
  phone_number : String
  is_active : Bool
deriving DecidableEq, Repr

structure OTPRecord where
  user_id : ℤ
  otp_code : String
  is_used : Bool
  expires_at : ℤ
deriving DecidableEq, Repr

structure AuthDB where
  users : List User
  otps : List OTPRecord
deriving DecidableEq, Repr

/-- `validate_phone_number`: 10 digits. -/
def validate_phone_number (phone : String) : Bool :=
  phone.length == 10 && phone.toList.all Char.isDigit

/-- The filter of the OTP query: same user, same code, unused, unexpired. -/
def otpMatches (uid : ℤ) (code : String) (now : ℤ) (o : OTPRecord) : Bool :=
  o.user_id == uid && o.otp_code == code && !o.is_used && decide (now < o.expires_at)

/-- `verify_otp(request)`: validate formats (400), find the user by phone
(404), check active (403), find the first matching unused unexpired OTP
record (401), mark it used, and return a fresh access token. -/
def verify_otp (secret : String) (db : AuthDB) (phone otp_code : String) (now : ℤ) :
    Except ℕ (WireToken × AuthDB) :=
  if ¬ validate_phone_number phone then .error 400
  else if ¬ (otp_code.length == 6 && otp_code.toList.all Char.isDigit) then .error 400
  else
    match db.users.find? (fun u => u.phone_number == phone) with
    | none => .error 404
    | some user =>
      if ¬ user.is_active then .error 403
      else
        match db.otps.find? (otpMatches user.id otp_code now) with
        | none => .error 401
        | some _ =>
          .ok (create_access_token secret user.id user.username now none,
            { db with
                otps := updateFirst (otpMatches user.id otp_code now)
                          (fun o => { o with is_used := true }) db.otps })

theorem otpMatches_false_mono (uid : ℤ) (code : String) (now now2 : ℤ) (o : OTPRecord)
    (h : otpMatches uid code now o = false) (hle : now ≤ now2) :
    otpMatches uid code now2 o = false := by
  unfold otpMatches at *
  by_cases h1 : o.user_id == uid <;> by_cases h2 : o.otp_code == code <;>
    by_cases h3 : o.is_used <;> simp [h1, h2, h3] at * <;> omega

/-- The property C6 asserts (as amended) of a successful OTP verification at
phone/code/time under the given database. -/
def otpSingleUseClaim (secret : String) (db : AuthDB) (user : User)
    (phone code : String) (now now2 : ℤ) : Prop :=
  ∃ r l₁ l₂,
    db.otps = l₁ ++ r :: l₂ ∧
    otpMatches user.id code now r = true ∧
    verify_otp secret db phone code now =
      .ok (create_access_token secret user.id user.username now none,
        { db with otps := l₁ ++ { r with is_used := true } :: l₂ }) ∧
    (l₁ ++ { r with is_used := true } :: l₂).length = db.otps.length ∧
    verify_otp secret { db with otps := l₁ ++ { r with is_used := true } :: l₂ }
      phone code now2 = .error 401

/-- C6 (amended): when an active user's database holds exactly one unused
unexpired OTP record matching the code, verification succeeds once — the
record's used flag is set (no record is deleted) and a token is returned —
and a later verification with the same code fails with 401.  (Exactly one:
with duplicate matching codes a second attempt would consume the second
record, see the counterexample.) -/
theorem verify_otp_single_use (secret : String) (db : AuthDB) (user : User)
    (phone code : String) (now now2 : ℤ)
    (hphone : validate_phone_number phone = true)
    (hcode : (code.length == 6 && code.toList.all Char.isDigit) = true)
    (huser : db.users.find? (fun u => u.phone_number == phone) = some user)
    (hactive : user.is_active = true)
    (hone : db.otps.countP (otpMatches user.id code now) = 1)
    (hle : now ≤ now2) :
    otpSingleUseClaim secret db user phone code now now2 := by
  obtain ⟨l₁, r, l₂, hsplit, hr, h₁, h₂⟩ := countP_one_decomp _ db.otps hone
  refine ⟨r, l₁, l₂, hsplit, hr, ?_, by rw [hsplit]; simp, ?_⟩
  · unfold verify_otp
    rw [if_neg (by simp only [hphone]; decide), if_neg (by simp only [hcode]; decide)]
    simp only [huser]
    rw [if_neg (by simp only [hactive]; decide), hsplit]
    simp only [find?_of_decomp _ r l₁ l₂ h₁ hr]
    rw [updateFirst_of_decomp _ _ r l₁ l₂ h₁ hr]
  · unfold verify_otp
    rw [if_neg (by simp only [hphone]; decide), if_neg (by simp only [hcode]; decide)]
    have husers : ({ db with otps := l₁ ++ { r with is_used := true } :: l₂ } : AuthDB).users
        = db.users := rfl
    rw [husers]
    simp only [huser]
    rw [if_neg (by simp only [hactive]; decide)]
    have hnone : (l₁ ++ { r with is_used := true } :: l₂).find?
        (otpMatches user.id code now2) = none := by
      rw [List.find?_eq_none]
      intro x hx
      rcases List.mem_append.1 hx with hx₁ | hx₂
      · simp [otpMatches_false_mono _ _ now now2 x (h₁ x hx₁) hle]
      · rcases List.mem_cons.1 hx₂ with rfl | hx₃
        · simp [otpMatches]
        · simp [otpMatches_false_mono _ _ now now2 x (h₂ x hx₃) hle]
    simp only [hnone]

/-- Closed instance of `verify_otp_single_use`: one user, one matching OTP
record, second attempt one minute later. -/
theorem verify_otp_single_use_witness :
    otpSingleUseClaim "dev-secret"
      ⟨[⟨1, "demo", "9876543210", true⟩], [⟨1, "123456", false, 100⟩]⟩
      ⟨1, "demo", "9876543210", true⟩ "9876543210" "123456" 0 1 :=
  verify_otp_single_use "dev-secret"
    ⟨[⟨1, "demo", "9876543210", true⟩], [⟨1, "123456", false, 100⟩]⟩
    ⟨1, "demo", "9876543210", true⟩ "9876543210" "123456" 0 1
    (by decide) (by decide) (by decide) rfl (by decide) (by decide)

/-- Does a second verification attempt (after one successful verification)
succeed?  Runs `verify_otp` twice, threading the updated state. -/
def secondAttemptSucceeds (secret phone code : String) (db : AuthDB) (t1 t2 : ℤ) : Bool :=
  match verify_otp secret db phone code t1 with
  | .ok (_, db') =>
    match verify_otp secret db' phone code t2 with
    | .ok _ => true
    | .error _ => false
  | .error _ => false

/-- C6 counterexample: with two unused unexpired records carrying the same
6-digit code, verification succeeds twice — the second attempt does not fail
with 401, because the second matching record is still unused. -/
theorem verify_otp_counterexample :
    secondAttemptSucceeds "dev-secret" "9876543210" "123456"
      ⟨[⟨1, "demo", "9876543210", true⟩],
       [⟨1, "123456", false, 100⟩, ⟨1, "123456", false, 100⟩]⟩ 0 1 = true := by
  decide

/-! ## Appliance on/off (`api/appliances.py`)

State is the appliance and usage tables.  Timestamps are seconds (IST);
`turn_off` computes the duration in hours from the activation timestamp. -/

structure Appliance where
  id : ℤ
  user_id : ℤ
  name : String
  power_kw : ℚ
  is_on : Bool
  last_started_at : Option ℤ
deriving DecidableEq, Repr

structure ApplianceUsage where
  appliance_id : ℤ
  start_time : ℤ
  end_time : ℤ
  energy_kwh : ℚ
deriving DecidableEq, Repr

structure ApplianceDB where
  appliances : List Appliance
  usages : List ApplianceUsage
deriving DecidableEq, Repr

/-- The ownership filter of both endpoints: matching id owned by the caller. -/
def ownedBy (appliance_id user_id : ℤ) (a : Appliance) : Bool :=
  a.id == appliance_id && a.user_id == user_id

/-- `turn_on`: 403 when absent or not owned; soft success (`true` = the
"Already ON" message) when already on; otherwise set the on-flag and the
activation timestamp. -/
def turn_on (db : ApplianceDB) (appliance_id user_id now : ℤ) :
    Except ℕ (Bool × ApplianceDB) :=
  match db.appliances.find? (ownedBy appliance_id user_id) with
  | none => .error 403
  | some a =>
    if a.is_on then .ok (true, db)
    else .ok (false,
      { db with
          appliances := updateFirst (ownedBy appliance_id user_id)
                          (fun b => { b with is_on := true, last_started_at := some now })
                          db.appliances })

/-- `turn_off`: 403 when absent, not owned or not running; otherwise record
one usage row with energy = power × hours (rounded to 3 decimals), clear the
activation state and return the energy.  (The 500 branch is Python's
`TypeError` were an appliance on with no activation timestamp.) -/
def turn_off (db : ApplianceDB) (appliance_id user_id now : ℤ) :
    Except ℕ (ℚ × ApplianceDB) :=
  match db.appliances.find? (ownedBy appliance_id user_id) with
  | none => .error 403
  | some a =>
    if ¬ a.is_on then .error 403
    else
      match a.last_started_at with
      | none => .error 500
      | some t0 =>
        let energy_used := pyRound 3 (a.power_kw * (((now - t0 : ℤ) : ℚ) / 3600))
        .ok (energy_used,
          { appliances := updateFirst (ownedBy appliance_id user_id)
              (fun b => { b with is_on := false, last_started_at := none })
              db.appliances,
            usages := db.usages ++ [⟨a.id, t0, now, energy_used⟩] })

/-- The property C7 asserts of an on/off round trip of appliance `a` (off,
rated 2 kW) over exactly one hour, plus the 403 half for any state. -/
def onOffRoundTripClaim (db : ApplianceDB) (a : Appliance) (aid uid now : ℤ) : Prop :=
  (∃ l₁ l₂,
    db.appliances = l₁ ++ a :: l₂ ∧
    turn_on db aid uid now =
      .ok (false,
        { db with
            appliances := l₁ ++ { a with is_on := true, last_started_at := some now } :: l₂ }) ∧
    turn_off
      { db with
          appliances := l₁ ++ { a with is_on := true, last_started_at := some now } :: l₂ }
      aid uid (now + 3600) =
      .ok (2,
        { appliances := l₁ ++ { a with is_on := false, last_started_at := none } :: l₂,
          usages := db.usages ++ [⟨a.id, now, now + 3600, 2⟩] })) ∧
  (∀ (db' : ApplianceDB) (aid' uid' now' : ℤ),
    (db'.appliances.find? (ownedBy aid' uid') = none →
      turn_off db' aid' uid' now' = .error 403) ∧
    (∀ b, db'.appliances.find? (ownedBy aid' uid') = some b → b.is_on = false →
      turn_off db' aid' uid' now' = .error 403))

/-- C7: turning an owned, initially-off, 2.0 kW appliance on and off after
exactly one hour records exactly one usage row with energy 2.0, clears the
on-flag and activation timestamp and returns the energy; turning off an
absent, unowned or not-running appliance yields 403 and records nothing. -/
theorem turn_on_off_round_trip (db : ApplianceDB) (a : Appliance) (aid uid now : ℤ)
    (hfind : db.appliances.find? (ownedBy aid uid) = some a)
    (hoff : a.is_on = false)
    (hpow : a.power_kw = 2) :
    onOffRoundTripClaim db a aid uid now := by
  obtain ⟨l₁, l₂, hsplit, h₁, ha⟩ := find?_decomp _ db.appliances a hfind
  have hone : turn_on db aid uid now =
      .ok (false,
        { db with
            appliances := l₁ ++ { a with is_on := true, last_started_at := some now } :: l₂ }) := by
    unfold turn_on
    simp only [hfind]
    rw [if_neg (by simp [hoff]), hsplit, updateFirst_of_decomp _ _ a l₁ l₂ h₁ ha]
  have ha' : ownedBy aid uid { a with is_on := true, last_started_at := some now } = true := by
    simpa [ownedBy] using ha
  have hfind' : (l₁ ++ { a with is_on := true, last_started_at := some now } :: l₂).find?
      (ownedBy aid uid) = some { a with is_on := true, last_started_at := some now } :=
    find?_of_decomp _ _ l₁ l₂ h₁ ha'
  have henergy : pyRound 3 (({ a with is_on := true, last_started_at := some now } :
      Appliance).power_kw * (((now + 3600 - now : ℤ) : ℚ) / 3600)) = 2 := by
    have harg : (({ a with is_on := true, last_started_at := some now } :
        Appliance).power_kw * (((now + 3600 - now : ℤ) : ℚ) / 3600)) = 2 := by
      show a.power_kw * (((now + 3600 - now : ℤ) : ℚ) / 3600) = 2
      rw [hpow]
      norm_num
    rw [harg]
    norm_num [pyRound, rhe]
  refine ⟨⟨l₁, l₂, hsplit, hone, ?_⟩, ?_⟩
  · unfold turn_off
    simp only [hfind']
    rw [if_neg (by simp)]
    simp only [henergy]
    rw [updateFirst_of_decomp _ _ _ l₁ l₂ h₁ ha']
  · intro db' aid' uid' now'
    constructor
    · intro hnone
      unfold turn_off
      simp only [hnone]
    · intro b hb hboff
      unfold turn_off
      simp only [hb]
      rw [if_pos (by simp [hboff])]

/-- Closed instance of `turn_on_off_round_trip`: one off 2 kW appliance,
switched on at time 0 and off at time 3600. -/
theorem turn_on_off_round_trip_witness :
    onOffRoundTripClaim ⟨[⟨1, 1, "Geyser", 2, false, none⟩], []⟩
      ⟨1, 1, "Geyser", 2, false, none⟩ 1 1 0 :=
  turn_on_off_round_trip ⟨[⟨1, 1, "Geyser", 2, false, none⟩], []⟩
    ⟨1, 1, "Geyser", 2, false, none⟩ 1 1 0 (by decide) rfl rfl

/-! ## Meter simulator -/

structure Meter where
  id : ℤ
  user_id : ℤ
deriving DecidableEq, Repr

structure MeterReadingRow where
  meter_id : ℤ
  timestamp : ℤ
  energy_kwh : ℚ
deriving DecidableEq, Repr

structure MeterDB where
  meters : List Meter
  readings : List MeterReadingRow
deriving DecidableEq, Repr

/-- Modelled from the spec: `generate_reading` — the simulator body the
`meter_loop` in `main.py` invokes — is missing from the source tree (the
`services/meter_simulator.py` present is a superseded placeholder draft that
only defines a `generate_readings` fake-data iterator).  Per §4.6: locate the
first existing Meter record; if none exists do nothing; otherwise persist a
MeterReading with a uniformly random energy in [0.1, 0.6] kWh rounded to 3
decimals, timestamped now (IST).  The uniform draw is modelled by a parameter
`r ∈ [0, 1]` mapped affinely onto [0.1, 0.6]. -/
def generate_reading (db : MeterDB) (now : ℤ) (r : ℚ) : MeterDB :=
  match db.meters.head? with
  | none => db
  | some m =>
    { db with readings := db.readings ++ [⟨m.id, now, pyRound 3 (1/10 + r * (1/2))⟩] }

theorem rhe_bounds_interval (q : ℚ) (lo hi : ℤ) (hlo : (lo : ℚ) ≤ q) (hhi : q ≤ (hi : ℚ)) :
    (lo : ℚ) ≤ (rhe q : ℚ) ∧ (rhe q : ℚ) ≤ (hi : ℚ) := by
  have hfl : lo ≤ ⌊q⌋ := Int.le_floor.2 hlo
  have hfu : ⌊q⌋ ≤ hi := Int.floor_le_floor (α := ℚ) hhi |>.trans (by simp)
  constructor
  · exact_mod_cast le_trans hfl (rhe_ge_floor q)
  · by_cases hq : ⌊q⌋ = hi
    · have hqe : q = (hi : ℚ) := le_antisymm hhi (by rw [← hq]; exact Int.floor_le q)
      rw [hqe, rhe_intCast]
    · have : rhe q ≤ hi := le_trans (rhe_le_floor_add_one q) (by omega)
      exact_mod_cast this

/-- C9 (spec-modelled): with no meter the simulator does nothing; otherwise
it appends exactly one reading for the first meter, timestamped now, whose
energy is the rounded uniform draw and lies in [0.1, 0.6]. -/
theorem generate_reading_spec (db : MeterDB) (now : ℤ) (r : ℚ)
    (h0 : 0 ≤ r) (h1 : r ≤ 1) :
    (db.meters = [] → generate_reading db now r = db) ∧
    (∀ m, db.meters.head? = some m →
      generate_reading db now r =
        { db with readings := db.readings ++ [⟨m.id, now, pyRound 3 (1/10 + r * (1/2))⟩] } ∧
      1/10 ≤ pyRound 3 (1/10 + r * (1/2)) ∧ pyRound 3 (1/10 + r * (1/2)) ≤ 6/10) := by
  constructor
  · intro hnil
    unfold generate_reading
    rw [hnil]
    rfl
  · intro m hm
    refine ⟨by unfold generate_reading; rw [hm], ?_, ?_⟩
    · have hb := rhe_bounds_interval ((1/10 + r * (1/2)) * 10 ^ 3) 100 600
        (by push_cast; linarith) (by push_cast; linarith)
      unfold pyRound
      calc (1/10 : ℚ) = (100 : ℚ) / 10 ^ 3 := by norm_num
          _ ≤ (rhe ((1/10 + r * (1/2)) * 10 ^ 3) : ℚ) / 10 ^ 3 := by
              apply div_le_div_of_nonneg_right ?_ (by norm_num)
              exact_mod_cast hb.1
          _ = _ := rfl
    · have hb := rhe_bounds_interval ((1/10 + r * (1/2)) * 10 ^ 3) 100 600
        (by push_cast; linarith) (by push_cast; linarith)
      unfold pyRound
      calc (rhe ((1/10 + r * (1/2)) * 10 ^ 3) : ℚ) / 10 ^ 3
          ≤ (600 : ℚ) / 10 ^ 3 := by
            apply div_le_div_of_nonneg_right ?_ (by norm_num)
            exact_mod_cast hb.2
        _ = 6/10 := by norm_num

/-- Closed instance of `generate_reading_spec`: one meter, mid-range draw. -/
theorem generate_reading_spec_witness :
    (0 : ℚ) ≤ 1/2 ∧ (1/2 : ℚ) ≤ 1 ∧
    ((⟨[⟨1, 1⟩], []⟩ : MeterDB).meters = [] →
        generate_reading ⟨[⟨1, 1⟩], []⟩ 0 (1/2) = ⟨[⟨1, 1⟩], []⟩) ∧
    (∀ m, (⟨[⟨1, 1⟩], []⟩ : MeterDB).meters.head? = some m →
      generate_reading ⟨[⟨1, 1⟩], []⟩ 0 (1/2) =
        { (⟨[⟨1, 1⟩], []⟩ : MeterDB) with
            readings := (⟨[⟨1, 1⟩], []⟩ : MeterDB).readings ++
              [⟨m.id, 0, pyRound 3 (1/10 + (1/2) * (1/2))⟩] } ∧
      1/10 ≤ pyRound 3 (1/10 + (1/2) * (1/2)) ∧
      pyRound 3 (1/10 + (1/2) * (1/2)) ≤ 6/10) :=
  ⟨by norm_num, by norm_num,
    generate_reading_spec ⟨[⟨1, 1⟩], []⟩ 0 (1/2) (by norm_num) (by norm_num)⟩

end WattWise
